import Mathlib

/-!
Verification development for the duech-online dictionary web application.

This file gives a shallow embedding of the word CRUD route handlers
(`src/app/api/words/[lemma]/route.ts`), the comment CRUD route handlers
(`src/app/api/words/[lemma]/comments/[commentId]/route.ts`) and the
client-side comment section helpers (`src/components/word/word-header.tsx`),
together with theorems about their behaviour.

JavaScript values arriving from JSON payloads are modelled by the inductive
type `JVal`; JavaScript numbers are modelled by `JNum`, which distinguishes
integer values (exact) from non-integer numbers (kept abstractly with their
string rendering).  Absent object fields are modelled by `Option`; where the
source feeds a possibly-absent field to a function, `.getD JVal.null` is used
(observationally equivalent to `undefined` on every code path embedded here).
Fallible builtins (`decodeURIComponent`, `parseInt`) return `Option`.
Database and session primitives that live outside the translated files
(`getWordByLemma`, `createWord`, `deleteWordByLemma`, `getNoteWithDetails`,
`getSessionUser`, ...) are parameters of the handler functions, so a handler
theorem quantifies over every possible database/session behaviour.
-/

/-- JavaScript numbers as seen in JSON payloads: integers are kept exactly,
non-integer numbers are kept abstractly together with their decimal string
rendering (claims here never compute with non-integer numbers). -/
inductive JNum where
  | int (n : Int)
  | nonint (repr : String)
deriving DecidableEq

/-- JSON-like JavaScript values, as produced by `request.json()` and route
parameters.  `undefined` is not represented: absent object fields are
modelled with `Option` at use sites. -/
inductive JVal where
  | null
  | bool (b : Bool)
  | num (n : JNum)
  | str (s : String)
  | arr (items : List JVal)
  | obj (fields : List (String × JVal))

/-- First-match lookup in an object field list. -/
def lookupField : List (String × JVal) → String → Option JVal
  | [], _ => none
  | (k, v) :: rest, key => if k = key then some v else lookupField rest key

/-- Property access `value[key]`: `none` models `undefined`. -/
def getField : JVal → String → Option JVal
  | .obj fs, key => lookupField fs key
  | _, _ => none

/-- Property access on a possibly-absent value, defaulting to `null`
(observationally equal to `undefined` on every embedded code path). -/
def jfield (v : Option JVal) (key : String) : JVal :=
  (v.bind (fun w => getField w key)).getD .null

/-- JavaScript truthiness of an embedded value. -/
def truthy : JVal → Bool
  | .null => false
  | .bool b => b
  | .num (.int n) => n != 0
  | .num (.nonint _) => true
  | .str s => s != ""
  | .arr _ => true
  | .obj _ => true

/-- The characters removed by the ECMAScript `TrimString` operation
(WhiteSpace and LineTerminator code points). -/
def isJsWs (c : Char) : Bool :=
  c == ' ' || c == '\t' || c == '\n' || c == '\r' ||
  c.toNat == 11 || c.toNat == 12 || c.toNat == 0xA0 || c.toNat == 0xFEFF ||
  (0x2000 ≤ c.toNat && c.toNat ≤ 0x200A) ||
  c.toNat == 0x2028 || c.toNat == 0x2029 || c.toNat == 0x202F ||
  c.toNat == 0x205F || c.toNat == 0x3000 || c.toNat == 0x1680

/-- JavaScript `String.prototype.trim`. -/
def jsTrim (s : String) : String :=
  String.mk (((s.data.dropWhile isJsWs).reverse.dropWhile isJsWs).reverse)

/-- Length of a string in UTF-16 code units (JavaScript `String#length`). -/
def utf16Length (s : String) : Nat :=
  s.data.foldl (fun n c => n + (if c.toNat ≥ 0x10000 then 2 else 1)) 0

/-- Digit scan of `parseInt` after the optional sign: longest digit prefix,
`none` when there is no digit (`NaN`). -/
def jsParseIntFrom (sign : Int) (rest : List Char) : Option Int :=
  let digits := rest.takeWhile Char.isDigit
  if digits.isEmpty then none
  else some (sign * ((digits.foldl (fun acc c => acc * 10 + (c.toNat - 48)) 0 : Nat) : Int))

/-- JavaScript `parseInt(s, 10)`; `none` models `NaN`. -/
def jsParseInt (s : String) : Option Int :=
  match s.data.dropWhile isJsWs with
  | '-' :: r => jsParseIntFrom (-1) r
  | '+' :: r => jsParseIntFrom 1 r
  | r => jsParseIntFrom 1 r

/-- Value of a hexadecimal digit character. -/
def hexDigit : Char → Option Nat := fun c =>
  if '0' ≤ c ∧ c ≤ '9' then some (c.toNat - 48)
  else if 'A' ≤ c ∧ c ≤ 'F' then some (c.toNat - 55)
  else if 'a' ≤ c ∧ c ≤ 'f' then some (c.toNat - 87)
  else none

/-- Token stream of the ECMAScript `Decode` operation: a literal character,
or one byte coming from a `%XX` escape. -/
inductive UriTok where
  | raw (c : Char)
  | byte (b : Nat)

/-- Scan of `%XX` escapes; fails (URIError) when a percent sign is not
followed by two hexadecimal digits. -/
def uriTokens : List Char → Option (List UriTok)
  | [] => some []
  | '%' :: h :: l :: rest => do
    let hv ← hexDigit h
    let lv ← hexDigit l
    let ts ← uriTokens rest
    some (.byte (16 * hv + lv) :: ts)
  | '%' :: _ => none
  | c :: rest => do
    let ts ← uriTokens rest
    some (.raw c :: ts)

/-- UTF-8 continuation byte test. -/
def contByte (b : Nat) : Bool := decide (0x80 ≤ b ∧ b ≤ 0xBF)

/-- UTF-8 decoding of escape bytes, per the ECMAScript `Decode` operation:
fails on invalid lead bytes, missing or invalid continuation bytes, overlong
encodings, surrogate code points and values above `0x10FFFF`. -/
def utf8Decode : List UriTok → Option (List Char)
  | [] => some []
  | .raw c :: rest => do
    let cs ← utf8Decode rest
    some (c :: cs)
  | .byte b :: rest =>
    if b < 0x80 then do
      let cs ← utf8Decode rest
      some (Char.ofNat b :: cs)
    else if 0xC2 ≤ b ∧ b ≤ 0xDF then
      match rest with
      | .byte b1 :: rest' =>
        if contByte b1 then do
          let cs ← utf8Decode rest'
          some (Char.ofNat ((b - 0xC0) * 64 + (b1 - 0x80)) :: cs)
        else none
      | _ => none
    else if 0xE0 ≤ b ∧ b ≤ 0xEF then
      match rest with
      | .byte b1 :: .byte b2 :: rest' =>
        let cp := (b - 0xE0) * 4096 + (b1 - 0x80) * 64 + (b2 - 0x80)
        if contByte b1 && contByte b2 &&
            decide (0x800 ≤ cp) && !decide (0xD800 ≤ cp ∧ cp ≤ 0xDFFF) then do
          let cs ← utf8Decode rest'
          some (Char.ofNat cp :: cs)
        else none
      | _ => none
    else if 0xF0 ≤ b ∧ b ≤ 0xF4 then
      match rest with
      | .byte b1 :: .byte b2 :: .byte b3 :: rest' =>
        let cp := (b - 0xF0) * 262144 + (b1 - 0x80) * 4096 + (b2 - 0x80) * 64 + (b3 - 0x80)
        if contByte b1 && contByte b2 && contByte b3 &&
            decide (0x10000 ≤ cp) && decide (cp ≤ 0x10FFFF) then do
          let cs ← utf8Decode rest'
          some (Char.ofNat cp :: cs)
        else none
      | _ => none
    else none

/-- JavaScript `decodeURIComponent`; `none` models a thrown `URIError`. -/
def decodeURIComponent (s : String) : Option String := do
  let ts ← uriTokens s.data
  let cs ← utf8Decode ts
  some (String.mk cs)

/-- 32-bit wrap to a signed integer, as performed by the JavaScript `|= 0`
and `<<` operators. -/
def toInt32 (x : Int) : Int := (x + 2147483648) % 4294967296 - 2147483648

/-- One iteration of the comment-avatar hash loop:
`hash = (hash << 5) - hash + charCode; hash |= 0`.  The shift truncates to a
signed 32-bit integer before the subtraction; the final `|= 0` truncates the
whole expression. -/
def hashStep (h : Int) (c : Nat) : Int := toInt32 (toInt32 (h * 32) - h + c)

/-- The hash loop of `hashString`, folding over the UTF-16 code units. -/
def hashLoop : Int → List Nat → Int
  | h, [] => h
  | h, c :: cs => hashLoop (hashStep h c) cs

/-- `hashString` from `word-header.tsx`: the 32-bit folded hash of a string
(given by its UTF-16 code units) passed through `Math.abs`. -/
def hashString (units : List Nat) : Int := |hashLoop 0 units|

/-- One entry of the comment colour palette. -/
structure Palette where
  avatarBg : String
  avatarText : String
  accentFrom : String
  accentVia : String
  accentTo : String
  bubbleBorder : String
  bubbleBg : String
  label : String
  cardBorder : String
  cardBg : String

/-- The `COLOR_PALETTE` constant of the comment bubble component. -/
def COLOR_PALETTE : List Palette := [
  { avatarBg := "bg-blue-500/15", avatarText := "text-blue-700",
    accentFrom := "from-blue-500", accentVia := "via-blue-400/80",
    accentTo := "to-blue-300/70", bubbleBorder := "border-blue-100",
    bubbleBg := "bg-blue-50/80", label := "text-blue-600",
    cardBorder := "border-blue-100", cardBg := "bg-blue-50/40" },
  { avatarBg := "bg-emerald-500/15", avatarText := "text-emerald-700",
    accentFrom := "from-emerald-500", accentVia := "via-emerald-400/80",
    accentTo := "to-emerald-300/70", bubbleBorder := "border-emerald-100",
    bubbleBg := "bg-emerald-50/80", label := "text-emerald-600",
    cardBorder := "border-emerald-100", cardBg := "bg-emerald-50/40" },
  { avatarBg := "bg-amber-500/15", avatarText := "text-amber-700",
    accentFrom := "from-amber-500", accentVia := "via-amber-400/80",
    accentTo := "to-amber-300/70", bubbleBorder := "border-amber-100",
    bubbleBg := "bg-amber-50/80", label := "text-amber-600",
    cardBorder := "border-amber-100", cardBg := "bg-amber-50/40" },
  { avatarBg := "bg-purple-500/15", avatarText := "text-purple-700",
    accentFrom := "from-purple-500", accentVia := "via-purple-400/80",
    accentTo := "to-purple-300/70", bubbleBorder := "border-purple-100",
    bubbleBg := "bg-purple-50/80", label := "text-purple-600",
    cardBorder := "border-purple-100", cardBg := "bg-purple-50/40" },
  { avatarBg := "bg-rose-500/15", avatarText := "text-rose-700",
    accentFrom := "from-rose-500", accentVia := "via-rose-400/80",
    accentTo := "to-rose-300/70", bubbleBorder := "border-rose-100",
    bubbleBg := "bg-rose-50/80", label := "text-rose-600",
    cardBorder := "border-rose-100", cardBg := "bg-rose-50/40" },
  { avatarBg := "bg-slate-500/15", avatarText := "text-slate-700",
    accentFrom := "from-slate-500", accentVia := "via-slate-400/80",
    accentTo := "to-slate-300/70", bubbleBorder := "border-slate-200",
    bubbleBg := "bg-slate-50/80", label := "text-slate-600",
    cardBorder := "border-slate-200", cardBg := "bg-slate-50/40" }
]

/-- `getPaletteForUser` from `word-header.tsx`: palette entry selected by the
hash of the user key (given by its UTF-16 code units).  JavaScript indexing
out of bounds would give `undefined`, modelled by `Option`. -/
def getPaletteForUser (userKey : List Nat) : Option Palette :=
  COLOR_PALETTE.get? ((hashString userKey) % (COLOR_PALETTE.length : Int)).toNat

/-- `resolveAssignedTo` from the words route: integer numbers are returned
as-is, strings are parsed with `parseInt(s, 10)` (`null` on `NaN`), a
non-empty array is resolved through its first element, and everything else
resolves to `null`.  The recursion descends only into the first element of an
array, which is structurally smaller, so the function is total. -/
def resolveAssignedTo : JVal → Option Int
  | .num (.int n) => some n
  | .str s => jsParseInt s
  | .arr (x :: _) => resolveAssignedTo x
  | _ => none

/-- String rendering of a JavaScript number inside a template literal. -/
def jnumToString : JNum → String
  | .int n => toString n
  | .nonint r => r

/-- A normalized meaning as built by the words POST route.  The marker
values spread into the object are kept as an association list over the
`MEANING_MARKER_KEYS` list, which lives in `lib/definitions` (not part of
the translated sources); all definitions below are parametric in that list. -/
structure Meaning where
  number : JNum
  meaning : String
  origin : Option String
  grammarCategory : Option String
  remission : Option String
  observation : Option String
  examples : Option (List JVal)
  variant : Option String
  markers : List (String × Option String)

/-- `extractMarkerValues` from the words route: each marker key is bound to
the item value when that value is a string, and to `null` otherwise. -/
def extractMarkerValues (keys : List String) (source : JVal) : List (String × Option String) :=
  keys.map (fun key =>
    (key, match getField source key with
          | some (.str s) => some s
          | _ => none))

/-- `extractExamples` from the words route: a new-style `examples` array
wins, then a legacy `example` array, then a single legacy `example` object,
otherwise no examples. -/
def extractExamples (source : JVal) : List JVal :=
  match getField source "examples" with
  | some (.arr xs) => xs
  | _ =>
    match getField source "example" with
    | some (.arr xs) => xs
    | some (.obj fs) => [.obj fs]
    | _ => []

/-- The JavaScript filter predicate
`typeof item === 'object' && item !== null`: arrays and objects pass. -/
def isObjLike : JVal → Bool
  | .arr _ => true
  | .obj _ => true
  | _ => false

/-- Array test used by `normalizeMeanings`. -/
def isArr : JVal → Bool
  | .arr _ => true
  | _ => false

/-- The body of the `.map((def, index) => ...)` callback of
`normalizeMeanings`. -/
def buildMeaning (keys : List String) (index : Nat) (d : JVal) : Meaning :=
  let number : JNum :=
    match getField d "number" with
    | some (.num n) => n
    | _ => .int (index + 1)
  let meaning : String :=
    match getField d "meaning" with
    | some (.str s) => if jsTrim s ≠ "" then s else "Definición " ++ jnumToString number
    | _ => "Definición " ++ jnumToString number
  let examples := extractExamples d
  { number := number
    meaning := meaning
    origin := match getField d "origin" with | some (.str s) => some s | _ => none
    grammarCategory := match getField d "grammarCategory" with | some (.str s) => some s | _ => none
    remission := match getField d "remission" with | some (.str s) => some s | _ => none
    observation := match getField d "observation" with | some (.str s) => some s | _ => none
    examples := if examples.length > 0 then some examples else none
    variant := match getField d "variant" with | some (.str s) => some s | _ => none
    markers := extractMarkerValues keys d }

/-- Indexed map over the filtered items, mirroring `.map((def, index))`. -/
def normalizeLoop (keys : List String) : Nat → List JVal → List Meaning
  | _, [] => []
  | i, d :: rest => buildMeaning keys i d :: normalizeLoop keys (i + 1) rest

/-- `normalizeMeanings` from the words route: a non-array input yields the
empty list; array items that are not objects (or are `null`) are dropped
and the remaining items are normalized with their post-filter index. -/
def normalizeMeanings (keys : List String) (input : JVal) : List Meaning :=
  match input with
  | .arr items => normalizeLoop keys 0 (items.filter isObjLike)
  | _ => []

/-- `createEmptyMarkerValues` from the words route: every marker key bound
to `null`. -/
def createEmptyMarkerValues (keys : List String) : List (String × Option String) :=
  keys.map (fun key => (key, none))

/-- The default meaning inserted by the POST route when `normalizeMeanings`
yields no meanings. -/
def defaultMeaning (keys : List String) : Meaning :=
  { number := .int 1
    meaning := "Definición pendiente"
    origin := none
    grammarCategory := none
    remission := none
    observation := none
    examples := none
    variant := none
    markers := createEmptyMarkerValues keys }

/-- A session user as returned by `getSessionUser`: `id` and `role` may be
absent. -/
structure User where
  id : Option String
  role : Option String
deriving DecidableEq

/-- The requester id computed by the routes:
`user.id ? Number.parseInt(user.id, 10) : null`, with a later
`Number.isInteger` / strict-equality guard that makes a `NaN` parse behave
exactly like `null`; both are therefore modelled as `none`. -/
def parsedUserId (id : Option String) : Option Int :=
  match id with
  | some s => if s = "" then none else jsParseInt s
  | none => none

/-- `parseCommentId` from the comments route: `parseInt` of the raw id,
`null` on `NaN` or a non-positive value. -/
def parseCommentId (rawId : String) : Option Int :=
  match jsParseInt rawId with
  | none => none
  | some parsed => if parsed ≤ 0 then none else some parsed

/-- `normalizeLemma` from the comments route: `decodeURIComponent`, falling
back to the raw lemma when decoding throws. -/
def normalizeLemma (rawLemma : String) : String :=
  (decodeURIComponent rawLemma).getD rawLemma

/-- The word a note belongs to, as loaded by `getNoteWithDetails`. -/
structure NoteWord where
  lemmaValue : String
deriving DecidableEq

/-- The author of a note, as loaded by `getNoteWithDetails`. -/
structure NoteUser where
  id : Int
  username : String
deriving DecidableEq

/-- A note with details, as loaded by `getNoteWithDetails`; `userId` and
`word` may be `null` in the database. -/
structure NoteDetails where
  userId : Option Int
  word : Option NoteWord
  user : Option NoteUser
deriving DecidableEq

/-- `getAuthorizedNote` from the comments route: the note must exist and its
word lemma must equal the (normalized) lemma of the URL. -/
def getAuthorizedNote (db : Int → Option NoteDetails) (lemmaValue : String) (commentId : Int) :
    Option NoteDetails :=
  match db commentId with
  | none => none
  | some note =>
    if (match note.word with
        | some w => w.lemmaValue == lemmaValue
        | none => false) then some note else none

/-- Outcome of the comments DELETE handler: response status and the id
passed to `deleteNoteById` (`none` when the note is not deleted). -/
structure DeleteCommentResult where
  status : Nat
  deletedId : Option Int
deriving DecidableEq

/-- The DELETE handler of
`/api/words/[lemma]/comments/[commentId]` as a function of the session,
the raw route parameters and the database lookup. -/
def deleteCommentHandler (db : Int → Option NoteDetails) (session : Option User)
    (rawLemma rawCommentId : String) : DeleteCommentResult :=
  match session with
  | none => ⟨401, none⟩
  | some user =>
    let normalizedLemma := normalizeLemma rawLemma
    match parseCommentId rawCommentId with
    | none => ⟨400, none⟩
    | some noteId =>
      match getAuthorizedNote db normalizedLemma noteId with
      | none => ⟨404, none⟩
      | some note =>
        let requesterId := parsedUserId user.id
        let isLexicographer := user.role == some "lexicographer"
        let isAdmin := user.role == some "admin" || user.role == some "superadmin"
        let isOwner :=
          match requesterId, note.userId with
          | some r, some u => r == u
          | _, _ => false
        let canDelete := (isLexicographer && isOwner) || isAdmin
        if canDelete then ⟨200, some noteId⟩ else ⟨403, none⟩

/-- The trimmed note value read by the PATCH handler from its payload
(`typeof payload.note === 'string' ? payload.note.trim() : ''`). -/
def noteValueOf (payload : JVal) : String :=
  match getField payload "note" with
  | some (.str s) => jsTrim s
  | _ => ""

/-- Outcome of the comments PATCH handler: response status and the
arguments passed to `updateNoteValue` (`none` when no update happens). -/
structure PatchCommentResult where
  status : Nat
  updateCalledWith : Option (Int × String)
deriving DecidableEq

/-- The PATCH handler of
`/api/words/[lemma]/comments/[commentId]` as a function of the session,
the raw route parameters, the JSON payload and the database lookup. -/
def patchCommentHandler (db : Int → Option NoteDetails) (session : Option User)
    (rawLemma rawCommentId : String) (payload : JVal) : PatchCommentResult :=
  match session with
  | none => ⟨401, none⟩
  | some user =>
    let normalizedLemma := normalizeLemma rawLemma
    match parseCommentId rawCommentId with
    | none => ⟨400, none⟩
    | some noteId =>
      let noteValue := noteValueOf payload
      if noteValue = "" then ⟨400, none⟩
      else
        match getAuthorizedNote db normalizedLemma noteId with
        | none => ⟨404, none⟩
        | some note =>
          let requesterId := parsedUserId user.id
          let role := user.role.getD ""
          let isOwner :=
            match requesterId, note.userId with
            | some r, some u => r == u
            | _, _ => false
          let canEdit :=
            isOwner && (role == "lexicographer" || role == "admin" || role == "superadmin")
          if canEdit then ⟨200, some (noteId, noteValue)⟩ else ⟨403, none⟩

/-- `canEditComment` from the client comment section: editing is offered
only in editor mode, for an owned comment, to a lexicographer or admin.
The `isLexicographer` and `isAdmin` flags come from the `useUserRole`
hook. -/
def canEditComment (editorMode : Bool) (currentId : Option Int) (commentUserId : Option Int)
    (isLexicographer isAdmin : Bool) : Bool :=
  if !editorMode then false
  else
    let ownsComment :=
      match currentId, commentUserId with
      | some c, some u => c == u
      | _, _ => false
    if !ownsComment then false else isLexicographer || isAdmin

/-- Outcome of the words GET handler: response status, the arguments passed
to `getWordByLemma` (`none` when the database is not queried) and the
returned word data. -/
structure GetWordResult where
  status : Nat
  lookupCalledWith : Option (String × Bool)
  data : Option JVal

/-- The GET handler of `/api/words/[lemma]`.  `rateLimitOk` is the success
flag reported by `applyRateLimit`; `headerEditorMode` is the value of
`isEditorModeFromHeaders`; `queryEditorMode` is the raw `editorMode` query
parameter; `db` is `getWordByLemma`, receiving the decoded lemma and the
`includeDrafts` flag. -/
def getWordHandler (rateLimitOk : Bool) (rawLemma : String) (headerEditorMode : Bool)
    (queryEditorMode : Option String) (db : String → Bool → Option JVal) : GetWordResult :=
  if !rateLimitOk then ⟨429, none, none⟩
  else if jsTrim rawLemma = "" then ⟨400, none, none⟩
  else
    match decodeURIComponent (jsTrim rawLemma) with
    | none => ⟨500, none, none⟩
    | some decodedLemma =>
      if utf16Length decodedLemma > 100 then ⟨400, none, none⟩
      else
        let editorMode := headerEditorMode || queryEditorMode == some "true"
        match db decodedLemma editorMode with
        | none => ⟨404, some (decodedLemma, editorMode), none⟩
        | some wordData => ⟨200, some (decodedLemma, editorMode), some wordData⟩

/-- The word record passed to `createWord`. -/
structure WordRecord where
  lemmaValue : String
  root : String
  values : List Meaning

/-- The option record passed to `createWord`. -/
structure CreateOpts where
  letter : Option String
  assignedTo : Option Int
  status : Option String
  createdBy : Option Int

/-- The result of a successful `createWord` call. -/
structure CreateOutcome where
  wordId : Int
  lemmaValue : String
  letter : Option String
deriving DecidableEq

/-- Outcome of the words POST handler: response status, the arguments
passed to `createWord` (`none` when it is not called) and the response
data (`wordId`, `lemma` and `letter`). -/
structure PostWordResult where
  status : Nat
  createCalledWith : Option (WordRecord × CreateOpts)
  data : Option CreateOutcome

/-- The trimmed lemma read by the POST handler from its payload
(`typeof payload.lemma === 'string' ? payload.lemma.trim() : ''`). -/
def postLemmaOf (payload : JVal) : String :=
  match getField payload "lemma" with
  | some (.str s) => jsTrim s
  | _ => ""

/-- The POST handler of `/api/words/[lemma]`.  `keys` is
`MEANING_MARKER_KEYS`; `createOk` tells whether the `createWord` call
succeeds (when it is reached) and `created` is its result. -/
def postWordHandler (keys : List String) (rateLimitOk : Bool) (payload : JVal)
    (createOk : Bool) (created : CreateOutcome) : PostWordResult :=
  if !rateLimitOk then ⟨429, none, none⟩
  else
    let lemmaValue := postLemmaOf payload
    if lemmaValue = "" then ⟨400, none, none⟩
    else
      let root := match getField payload "root" with | some (.str s) => s | _ => ""
      let letter := match getField payload "letter" with | some (.str s) => some (jsTrim s) | _ => none
      let assignedTo := resolveAssignedTo (jfield (some payload) "assignedTo")
      let status := match getField payload "status" with | some (.str s) => some s | _ => none
      let values := normalizeMeanings keys (jfield (some payload) "values")
      let createdBy := resolveAssignedTo (jfield (some payload) "createdBy")
      let finalValues := if values.length > 0 then values else [defaultMeaning keys]
      let word : WordRecord := ⟨lemmaValue, root, finalValues⟩
      let opts : CreateOpts := ⟨letter, assignedTo, status, createdBy⟩
      if createOk then ⟨201, some (word, opts), some created⟩
      else ⟨500, some (word, opts), none⟩

/-- The note created by `addNoteToWord`, already carrying the ISO rendering
of its creation date. -/
structure CreatedNote where
  id : Int
  note : String
  createdAtIso : String
  user : Option NoteUser
deriving DecidableEq

/-- Outcome of the words PUT handler: response status, the arguments passed
to `addNoteToWord` and `updateWordByLemma` (`none` when not called) and the
comment included in the response. -/
structure PutWordResult where
  status : Nat
  addNoteCalledWith : Option (String × String × Option Int)
  updateCalledWith : Option (String × JVal × Option JVal × Option JVal)
  responseComment : Option CreatedNote

/-- Second phase of the PUT handler, after the optional comment step:
update the word when a truthy `word` field is present, otherwise fail with
400 when no comment was created either. -/
def putAfterComment (decodedLemma : String) (body : JVal)
    (addCalled : Option (String × String × Option Int))
    (respComment : Option CreatedNote) : PutWordResult :=
  let updatedWord := getField body "word"
  if (match updatedWord with
      | some w => truthy w
      | none => false) then
    ⟨200, addCalled,
      some (decodedLemma, updatedWord.getD .null, getField body "status",
            getField body "assignedTo"),
      respComment⟩
  else
    match respComment with
    | none => ⟨400, addCalled, none, none⟩
    | some c => ⟨200, addCalled, none, some c⟩

/-- The PUT handler of `/api/words/[lemma]`.  The route never invokes
`applyRateLimit`, so `rateLimitOk` is unused, mirroring the source.
`addNote` is `addNoteToWord`, receiving the decoded lemma, the trimmed
comment and the requester id. -/
def putWordHandler (rateLimitOk : Bool) (rawLemma : String) (body : JVal)
    (session : Option User)
    (addNote : String → String → Option Int → CreatedNote) : PutWordResult :=
  match decodeURIComponent rawLemma with
  | none => ⟨500, none, none, none⟩
  | some decodedLemma =>
    if !(isObjLike body) then ⟨400, none, none, none⟩
    else
      match getField body "comment" with
      | some (.str c) =>
        if jsTrim c ≠ "" then
          let userId := parsedUserId (session.bind (fun u => u.id))
          let created := addNote decodedLemma (jsTrim c) userId
          putAfterComment decodedLemma body
            (some (decodedLemma, jsTrim c, userId)) (some created)
        else putAfterComment decodedLemma body none none
      | _ => putAfterComment decodedLemma body none none

/-- Outcome of the words DELETE handler: response status and the lemma
passed to `deleteWordByLemma` (`none` when it is not called). -/
structure DeleteWordResult where
  status : Nat
  deleteCalledWith : Option String
deriving DecidableEq

/-- The DELETE handler of `/api/words/[lemma]`.  The route never invokes
`applyRateLimit`, so `rateLimitOk` is unused, mirroring the source. -/
def deleteWordHandler (rateLimitOk : Bool) (session : Option User)
    (rawLemma : String) : DeleteWordResult :=
  match session with
  | none => ⟨401, none⟩
  | some user =>
    if user.role ≠ some "admin" ∧ user.role ≠ some "superadmin" then ⟨403, none⟩
    else
      match decodeURIComponent rawLemma with
      | none => ⟨500, none⟩
      | some decodedLemma => ⟨200, some decodedLemma⟩

/-- The author attached to a client-side comment; the optimistic comment
may carry a username without an id. -/
structure CommentUser where
  id : Option Int
  username : String
deriving DecidableEq

/-- A client-side comment (`WordComment` in the comment section). -/
structure ClientComment where
  id : Int
  user : Option CommentUser
  note : String
  createdAtIso : String
deriving DecidableEq

/-- The component state touched by `addComment`: the comments list and the
error message. -/
structure CommentSectionState where
  comments : List ClientComment
  error : Option String
deriving DecidableEq

/-- JavaScript `Array.prototype.findIndex`: index of the first match, `-1`
when there is none. -/
def jsFindIndex (p : ClientComment → Bool) : List ClientComment → Int
  | [] => -1
  | c :: rest =>
    if p c then 0
    else
      let r := jsFindIndex p rest
      if r = -1 then -1 else r + 1

/-- The optimistic author built by `addComment` from the current user id
and username reported by `useUserRole`. -/
def optimisticUserOf (currentId : Option Int) (username : String) : Option CommentUser :=
  match currentId with
  | some cid => some ⟨some cid, if username ≠ "" then username else "Tú"⟩
  | none => if username ≠ "" then some ⟨none, username⟩ else none

/-- The optimistic comment prepended by `addComment`; `optimisticId` models
`Date.now()` and `nowIso` models `new Date().toISOString()`. -/
def optimisticCommentOf (currentId : Option Int) (username : String)
    (optimisticId : Int) (nowIso : String) (trimmed : String) : ClientComment :=
  ⟨optimisticId, optimisticUserOf currentId username, trimmed, nowIso⟩

/-- `addComment` from the client comment section, as a transformer of the
component state.  `outcome` is the result of the PUT request: `some saved`
when the response is ok and carries `data.comment`, `none` for a non-ok
response or a missing comment payload.  The optimistic comment is first
prepended; on success the first entry whose id equals the optimistic id is
replaced by the saved comment (prepended when not found); on failure every
entry carrying the optimistic id is removed and an error is set. -/
def addComment (currentId : Option Int) (username : String) (lemmaValue : String)
    (optimisticId : Int) (nowIso : String) (text : String)
    (outcome : Option ClientComment) (s0 : CommentSectionState) : CommentSectionState :=
  let trimmed := jsTrim text
  if trimmed = "" then s0
  else if lemmaValue = "" then
    ⟨s0.comments, some "No pudimos asociar el comentario a la palabra actual."⟩
  else
    let optimistic := optimisticCommentOf currentId username optimisticId nowIso trimmed
    let afterOptimistic := optimistic :: s0.comments
    match outcome with
    | some saved =>
      let index := jsFindIndex (fun c => c.id == optimistic.id) afterOptimistic
      if index = -1 then ⟨saved :: afterOptimistic, none⟩
      else ⟨afterOptimistic.set index.toNat saved, none⟩
    | none =>
      ⟨afterOptimistic.filter (fun c => c.id != optimistic.id),
        some "No pudimos guardar el comentario. Vuelve a intentarlo."⟩

/-- Claim C9: `resolveAssignedTo` terminates on every finite JSON value
(the Lean function is total, by structural recursion into the first array
element) and returns the value itself for integer numbers, the base-10
`parseInt` of the value for strings (`null` when that parse is `NaN`), the
result on the first element for non-empty arrays, and `null` in every other
case (non-integer numbers, empty arrays, objects, `null` and booleans). -/
theorem C9_resolveAssignedTo_cases :
    (∀ n : Int, resolveAssignedTo (.num (.int n)) = some n) ∧
    (∀ r : String, resolveAssignedTo (.num (.nonint r)) = none) ∧
    (∀ s : String, resolveAssignedTo (.str s) = jsParseInt s) ∧
    (∀ (x : JVal) (xs : List JVal), resolveAssignedTo (.arr (x :: xs)) = resolveAssignedTo x) ∧
    resolveAssignedTo (.arr []) = none ∧
    resolveAssignedTo .null = none ∧
    (∀ b : Bool, resolveAssignedTo (.bool b) = none) ∧
    (∀ fs, resolveAssignedTo (.obj fs) = none) := by
  refine ⟨fun n => rfl, fun r => rfl, fun s => rfl, fun x xs => ?_, rfl, rfl,
    fun b => rfl, fun fs => rfl⟩
  simp [resolveAssignedTo]

/-- Claim C10: `hashString` is non-negative for every input string (given
by its UTF-16 code units), the palette index is in bounds of the 6-entry
palette, `getPaletteForUser` never yields `undefined`, and the palette
choice is deterministic in the user key. -/
theorem C10_getPaletteForUser_safe :
    ∀ userKey : List Nat,
      0 ≤ hashString userKey ∧
      (getPaletteForUser userKey).isSome = true ∧
      (∀ other : List Nat, userKey = other →
        getPaletteForUser userKey = getPaletteForUser other) := by
  intro userKey
  refine ⟨abs_nonneg _, ?_, fun other h => by rw [h]⟩
  have hlen : COLOR_PALETTE.length = 6 := rfl
  have h0 : (0 : Int) ≤ hashString userKey % (COLOR_PALETTE.length : Int) := by
    apply Int.emod_nonneg
    simp [hlen]
  have h6 : hashString userKey % (COLOR_PALETTE.length : Int) < 6 := by
    have := Int.emod_lt_of_pos (hashString userKey)
      (b := (COLOR_PALETTE.length : Int)) (by simp [hlen])
    simpa [hlen] using this
  have hidx : (hashString userKey % (COLOR_PALETTE.length : Int)).toNat < COLOR_PALETTE.length := by
    rw [hlen]
    omega
  rw [getPaletteForUser, List.get?_eq_get hidx]
  rfl

/-- Claim C10 witness: the palette lookup at a concrete user key. -/
theorem C10_getPaletteForUser_safe_witness :
    0 ≤ hashString [65] ∧ (getPaletteForUser [65]).isSome = true ∧
      getPaletteForUser [65] = getPaletteForUser [65] :=
  ⟨(C10_getPaletteForUser_safe [65]).1, (C10_getPaletteForUser_safe [65]).2.1,
    (C10_getPaletteForUser_safe [65]).2.2 [65] rfl⟩

/-- Claim C5: in `addComment`, for a non-empty trimmed text and a non-empty
lemma, the optimistic comment is prepended and then resolved: when the PUT
request fails the optimistic comment is removed — so, provided its id
differs from every pre-existing comment id, the list equals the list before
the call — and the error message is set; on success the optimistic entry is
replaced in place by the server comment, leaving the saved comment in front
of the previous list with no error. -/
theorem C5_addComment_rollback :
    ∀ (currentId : Option Int) (username lemmaValue : String) (optimisticId : Int)
      (nowIso text : String) (saved : ClientComment) (s0 : CommentSectionState),
    jsTrim text ≠ "" → lemmaValue ≠ "" →
    ((∀ c ∈ s0.comments, c.id ≠ optimisticId) →
      addComment currentId username lemmaValue optimisticId nowIso text none s0 =
        ⟨s0.comments, some "No pudimos guardar el comentario. Vuelve a intentarlo."⟩) ∧
    (addComment currentId username lemmaValue optimisticId nowIso text (some saved) s0 =
      ⟨saved :: s0.comments, none⟩) := by
  intro currentId username lemmaValue optimisticId nowIso text saved s0 htext hlemma
  constructor
  · intro hfresh
    simp only [addComment, if_neg htext, if_neg hlemma, CommentSectionState.mk.injEq]
    refine ⟨?_, trivial⟩
    rw [List.filter_cons]
    simp only [bne_self_eq_false, Bool.false_eq_true, if_false]
    exact List.filter_eq_self.mpr
      (fun c hc => by simpa [optimisticCommentOf] using hfresh c hc)
  · simp only [addComment, if_neg htext, if_neg hlemma]
    have hfind : jsFindIndex
        (fun c => c.id == (optimisticCommentOf currentId username optimisticId nowIso
          (jsTrim text)).id)
        ((optimisticCommentOf currentId username optimisticId nowIso (jsTrim text)) ::
          s0.comments) = 0 := by
      simp [jsFindIndex]
    rw [hfind]
    simp

/-- Claim C5 witness: a concrete failed call rolls back to the prior list
and a concrete successful call replaces the optimistic entry. -/
theorem C5_addComment_rollback_witness :
    addComment (some 7) "ana" "casa" 99 "2024-01-01T00:00:00.000Z" " hola "
        none ⟨[⟨1, some ⟨some 2, "luis"⟩, "ok", "2023-01-01T00:00:00.000Z"⟩], none⟩ =
      ⟨[⟨1, some ⟨some 2, "luis"⟩, "ok", "2023-01-01T00:00:00.000Z"⟩],
        some "No pudimos guardar el comentario. Vuelve a intentarlo."⟩ ∧
    addComment (some 7) "ana" "casa" 99 "2024-01-01T00:00:00.000Z" " hola "
        (some ⟨5, some ⟨some 7, "ana"⟩, "hola", "2024-01-01T00:00:01.000Z"⟩)
        ⟨[⟨1, some ⟨some 2, "luis"⟩, "ok", "2023-01-01T00:00:00.000Z"⟩], none⟩ =
      ⟨[⟨5, some ⟨some 7, "ana"⟩, "hola", "2024-01-01T00:00:01.000Z"⟩,
        ⟨1, some ⟨some 2, "luis"⟩, "ok", "2023-01-01T00:00:00.000Z"⟩], none⟩ :=
  ⟨(C5_addComment_rollback (some 7) "ana" "casa" 99 "2024-01-01T00:00:00.000Z" " hola "
      ⟨5, some ⟨some 7, "ana"⟩, "hola", "2024-01-01T00:00:01.000Z"⟩
      ⟨[⟨1, some ⟨some 2, "luis"⟩, "ok", "2023-01-01T00:00:00.000Z"⟩], none⟩
      (by decide) (by decide)).1 (by decide),
   (C5_addComment_rollback (some 7) "ana" "casa" 99 "2024-01-01T00:00:00.000Z" " hola "
      ⟨5, some ⟨some 7, "ana"⟩, "hola", "2024-01-01T00:00:01.000Z"⟩
      ⟨[⟨1, some ⟨some 2, "luis"⟩, "ok", "2023-01-01T00:00:00.000Z"⟩], none⟩
      (by decide) (by decide)).2⟩

/-- Claim C1 counterexample: with an admin session but a lemma parameter
that fails to URI-decode (a bare percent sign), the DELETE handler returns
500 from its catch block and `deleteWordByLemma` is never called, although
the claim asserts it is called whenever an admin or superadmin session is
present. -/
theorem C1_counterexample :
    deleteWordHandler true (some ⟨some "1", some "admin"⟩) "%" = ⟨500, none⟩ := by
  decide

/-- Claim C1 (amended): a DELETE without a session user returns 401 and a
session whose role is neither admin nor superadmin returns 403, in both
cases without calling `deleteWordByLemma`; with an admin or superadmin
session the handler calls `deleteWordByLemma` exactly when the lemma
parameter URI-decodes, and returns 500 without calling it when decoding
throws. -/
theorem C1_deleteWord_authorization :
    ∀ (rl : Bool) (rawLemma : String),
    (deleteWordHandler rl none rawLemma = ⟨401, none⟩) ∧
    (∀ u : User, u.role ≠ some "admin" → u.role ≠ some "superadmin" →
      deleteWordHandler rl (some u) rawLemma = ⟨403, none⟩) ∧
    (∀ u : User, (u.role = some "admin" ∨ u.role = some "superadmin") →
      (∀ d, decodeURIComponent rawLemma = some d →
        deleteWordHandler rl (some u) rawLemma = ⟨200, some d⟩) ∧
      (decodeURIComponent rawLemma = none →
        deleteWordHandler rl (some u) rawLemma = ⟨500, none⟩)) := by
  intro rl rawLemma
  refine ⟨rfl, ?_, ?_⟩
  · intro u h1 h2
    simp [deleteWordHandler, h1, h2]
  · intro u hrole
    have hcond : ¬ (u.role ≠ some "admin" ∧ u.role ≠ some "superadmin") := by
      rcases hrole with h | h <;> simp [h]
    constructor
    · intro d hd
      simp [deleteWordHandler, if_neg hcond, hd]
    · intro hd
      simp [deleteWordHandler, if_neg hcond, hd]

/-- Claim C1 witness: a lexicographer session is rejected with 403 and a
superadmin session on a well-formed lemma reaches `deleteWordByLemma`. -/
theorem C1_deleteWord_authorization_witness :
    deleteWordHandler true (some ⟨some "2", some "lexicographer"⟩) "casa" = ⟨403, none⟩ ∧
    deleteWordHandler true (some ⟨some "1", some "superadmin"⟩) "casa" = ⟨200, some "casa"⟩ :=
  ⟨(C1_deleteWord_authorization true "casa").2.1 ⟨some "2", some "lexicographer"⟩
      (by decide) (by decide),
   ((C1_deleteWord_authorization true "casa").2.2 ⟨some "1", some "superadmin"⟩
      (Or.inr rfl)).1 "casa" (by decide)⟩

/-- Claim C4 counterexample: a PUT request adding a comment proceeds to
`addNoteToWord` and answers 200 even when `applyRateLimit` would report
failure — the PUT route never applies rate limiting. -/
theorem C4_counterexample :
    (putWordHandler false "casa" (.obj [("comment", .str "hola")]) none
        (fun _ n _ => ⟨1, n, "2024-01-01T00:00:00.000Z", none⟩)).status = 200 ∧
    (putWordHandler false "casa" (.obj [("comment", .str "hola")]) none
        (fun _ n _ => ⟨1, n, "2024-01-01T00:00:00.000Z", none⟩)).addNoteCalledWith =
      some ("casa", "hola", none) := by
  constructor
  · rfl
  · rfl

/-- Claim C4 (amended): the GET and POST handlers of `/api/words/[lemma]`
apply rate limiting before any other processing — on failure they return
429 and never reach the database — while the PUT and DELETE handlers never
invoke `applyRateLimit`, so their behaviour is independent of its
outcome. -/
theorem C4_rateLimiting :
    (∀ rawLemma h q db, getWordHandler false rawLemma h q db = ⟨429, none, none⟩) ∧
    (∀ keys payload ok created,
      postWordHandler keys false payload ok created = ⟨429, none, none⟩) ∧
    (∀ rl rl' rawLemma body session addNote,
      putWordHandler rl rawLemma body session addNote =
        putWordHandler rl' rawLemma body session addNote) ∧
    (∀ rl rl' session rawLemma,
      deleteWordHandler rl session rawLemma = deleteWordHandler rl' session rawLemma) :=
  ⟨fun _ _ _ _ => rfl, fun _ _ _ _ => rfl, fun _ _ _ _ _ _ => rfl, fun _ _ _ _ => rfl⟩

/-- The strict-equality ownership test of the comment routes, as a
proposition. -/
theorem ownerMatch_iff (a b : Option Int) :
    ((match a, b with
      | some r, some u => r == u
      | _, _ => false) = true) ↔ ∃ rid, a = some rid ∧ b = some rid := by
  cases a with
  | none => simp
  | some r =>
    cases b with
    | none => simp
    | some uid =>
      show (r == uid) = true ↔ _
      simp only [beq_iff_eq, Option.some.injEq]
      constructor
      · intro h
        exact ⟨uid, h, rfl⟩
      · rintro ⟨rid, h1, h2⟩
        rw [h1, h2]

/-- Claim C2: for an authenticated DELETE on
`/api/words/[lemma]/comments/[commentId]` whose comment id parses to a
positive integer and whose note exists and belongs to the lemma, the note
is deleted (success response carrying its id) exactly when the requester is
a lexicographer owning the note, or an admin or superadmin (who may delete
comments they do not own); otherwise the handler returns 403 and deletes
nothing. -/
theorem C2_deleteComment_authorization :
    ∀ (db : Int → Option NoteDetails) (u : User) (rawLemma rawCommentId : String)
      (noteId : Int) (note : NoteDetails),
    parseCommentId rawCommentId = some noteId →
    getAuthorizedNote db (normalizeLemma rawLemma) noteId = some note →
    ((deleteCommentHandler db (some u) rawLemma rawCommentId = ⟨200, some noteId⟩) ↔
      ((u.role = some "lexicographer" ∧
          ∃ rid, parsedUserId u.id = some rid ∧ note.userId = some rid) ∨
        u.role = some "admin" ∨ u.role = some "superadmin")) ∧
    (¬ ((u.role = some "lexicographer" ∧
          ∃ rid, parsedUserId u.id = some rid ∧ note.userId = some rid) ∨
        u.role = some "admin" ∨ u.role = some "superadmin") →
      deleteCommentHandler db (some u) rawLemma rawCommentId = ⟨403, none⟩) := by
  intro db u rawLemma rawCommentId noteId note hparse hnote
  have hred : deleteCommentHandler db (some u) rawLemma rawCommentId =
      (if ((u.role == some "lexicographer") &&
            (match parsedUserId u.id, note.userId with
             | some r, some uid => r == uid
             | _, _ => false)) ||
          ((u.role == some "admin") || (u.role == some "superadmin")) then
        (⟨200, some noteId⟩ : DeleteCommentResult)
      else ⟨403, none⟩) := by
    simp only [deleteCommentHandler, hparse, hnote]
  have hcond : ((((u.role == some "lexicographer") &&
      (match parsedUserId u.id, note.userId with
       | some r, some uid => r == uid
       | _, _ => false)) ||
      ((u.role == some "admin") || (u.role == some "superadmin"))) = true) ↔
      ((u.role = some "lexicographer" ∧
          ∃ rid, parsedUserId u.id = some rid ∧ note.userId = some rid) ∨
        u.role = some "admin" ∨ u.role = some "superadmin") := by
    simp only [Bool.or_eq_true, Bool.and_eq_true, beq_iff_eq, ownerMatch_iff]
  constructor
  · rw [hred]
    by_cases h : (((u.role == some "lexicographer") &&
        (match parsedUserId u.id, note.userId with
         | some r, some uid => r == uid
         | _, _ => false)) ||
        ((u.role == some "admin") || (u.role == some "superadmin"))) = true
    · rw [if_pos h]
      exact ⟨fun _ => hcond.mp h, fun _ => rfl⟩
    · rw [if_neg h]
      constructor
      · intro heq
        exact absurd heq (by simp)
      · intro hp
        exact absurd (hcond.mpr hp) h
  · intro hp
    rw [hred, if_neg (fun h => hp (hcond.mp h))]

/-- Claim C2 witness: an admin deletes a note they do not own; a
lexicographer who does not own it is rejected with 403. -/
theorem C2_deleteComment_authorization_witness :
    deleteCommentHandler
        (fun i => if i = 5 then
          some ⟨some 7, some ⟨"casa"⟩, some ⟨7, "ana"⟩⟩ else none)
        (some ⟨some "1", some "admin"⟩) "casa" "5" = ⟨200, some 5⟩ ∧
    deleteCommentHandler
        (fun i => if i = 5 then
          some ⟨some 7, some ⟨"casa"⟩, some ⟨7, "ana"⟩⟩ else none)
        (some ⟨some "2", some "lexicographer"⟩) "casa" "5" = ⟨403, none⟩ := by
  constructor
  · exact ((C2_deleteComment_authorization _ ⟨some "1", some "admin"⟩ "casa" "5" 5
      ⟨some 7, some ⟨"casa"⟩, some ⟨7, "ana"⟩⟩ (by decide) (by decide)).1).mpr
      (Or.inr (Or.inl rfl))
  · refine (C2_deleteComment_authorization _ ⟨some "2", some "lexicographer"⟩ "casa" "5" 5
      ⟨some 7, some ⟨"casa"⟩, some ⟨7, "ana"⟩⟩ (by decide) (by decide)).2 ?_
    rintro (⟨_, rid, h1, h2⟩ | h | h)
    · rw [show parsedUserId (some "2") = some 2 from by decide] at h1
      injection h1 with e1
      injection h2 with e2
      omega
    · exact absurd h (by decide)
    · exact absurd h (by decide)

/-- The `user.role ?? ''` coalescing compared against a non-empty role
name. -/
theorem roleEq_iff (o : Option String) (s : String) (hs : s ≠ "") :
    o.getD "" = s ↔ o = some s := by
  cases o with
  | none =>
    simp only [Option.getD_none]
    constructor
    · intro h
      exact absurd h.symm hs
    · intro h
      cases h
  | some r => simp

/-- Claim C3: for an authenticated PATCH on
`/api/words/[lemma]/comments/[commentId]` with a non-empty trimmed note
body and an existing note matching the lemma, the update is performed
exactly when the requester owns the note and has role lexicographer, admin
or superadmin; an admin or superadmin who does not own the note receives
403 while the same request as a DELETE would succeed; and the client-side
`canEditComment` predicate (in editor mode, with the role flags of
`useUserRole`) decides exactly the same rule. -/
theorem C3_patchComment_ownership :
    ∀ (db : Int → Option NoteDetails) (u : User) (rawLemma rawCommentId : String)
      (payload : JVal) (noteId : Int) (note : NoteDetails),
    parseCommentId rawCommentId = some noteId →
    noteValueOf payload ≠ "" →
    getAuthorizedNote db (normalizeLemma rawLemma) noteId = some note →
    ((patchCommentHandler db (some u) rawLemma rawCommentId payload =
        ⟨200, some (noteId, noteValueOf payload)⟩) ↔
      ((∃ rid, parsedUserId u.id = some rid ∧ note.userId = some rid) ∧
        (u.role = some "lexicographer" ∨ u.role = some "admin" ∨
          u.role = some "superadmin"))) ∧
    (¬ ((∃ rid, parsedUserId u.id = some rid ∧ note.userId = some rid) ∧
        (u.role = some "lexicographer" ∨ u.role = some "admin" ∨
          u.role = some "superadmin")) →
      patchCommentHandler db (some u) rawLemma rawCommentId payload = ⟨403, none⟩) ∧
    ((u.role = some "admin" ∨ u.role = some "superadmin") →
      ¬ (∃ rid, parsedUserId u.id = some rid ∧ note.userId = some rid) →
      patchCommentHandler db (some u) rawLemma rawCommentId payload = ⟨403, none⟩ ∧
      deleteCommentHandler db (some u) rawLemma rawCommentId = ⟨200, some noteId⟩) ∧
    ((canEditComment true (parsedUserId u.id) note.userId
        (u.role == some "lexicographer")
        ((u.role == some "admin") || (u.role == some "superadmin")) = true) ↔
      ((∃ rid, parsedUserId u.id = some rid ∧ note.userId = some rid) ∧
        (u.role = some "lexicographer" ∨ u.role = some "admin" ∨
          u.role = some "superadmin"))) := by
  intro db u rawLemma rawCommentId payload noteId note hparse hval hnote
  have hred : patchCommentHandler db (some u) rawLemma rawCommentId payload =
      (if (match parsedUserId u.id, note.userId with
           | some r, some uid => r == uid
           | _, _ => false) &&
          ((u.role.getD "" == "lexicographer") || (u.role.getD "" == "admin") ||
            (u.role.getD "" == "superadmin")) then
        (⟨200, some (noteId, noteValueOf payload)⟩ : PatchCommentResult)
      else ⟨403, none⟩) := by
    simp only [patchCommentHandler, hparse, hnote, if_neg hval]
  have hcond : (((match parsedUserId u.id, note.userId with
      | some r, some uid => r == uid
      | _, _ => false) &&
      ((u.role.getD "" == "lexicographer") || (u.role.getD "" == "admin") ||
        (u.role.getD "" == "superadmin"))) = true) ↔
      ((∃ rid, parsedUserId u.id = some rid ∧ note.userId = some rid) ∧
        (u.role = some "lexicographer" ∨ u.role = some "admin" ∨
          u.role = some "superadmin")) := by
    simp only [Bool.and_eq_true, Bool.or_eq_true, beq_iff_eq, ownerMatch_iff,
      roleEq_iff u.role "lexicographer" (by decide),
      roleEq_iff u.role "admin" (by decide),
      roleEq_iff u.role "superadmin" (by decide), or_assoc]
  have hredD : deleteCommentHandler db (some u) rawLemma rawCommentId =
      (if ((u.role == some "lexicographer") &&
            (match parsedUserId u.id, note.userId with
             | some r, some uid => r == uid
             | _, _ => false)) ||
          ((u.role == some "admin") || (u.role == some "superadmin")) then
        (⟨200, some noteId⟩ : DeleteCommentResult)
      else ⟨403, none⟩) := by
    simp only [deleteCommentHandler, hparse, hnote]
  refine ⟨?_, ?_, ?_, ?_⟩
  · rw [hred]
    by_cases h : ((match parsedUserId u.id, note.userId with
        | some r, some uid => r == uid
        | _, _ => false) &&
        ((u.role.getD "" == "lexicographer") || (u.role.getD "" == "admin") ||
          (u.role.getD "" == "superadmin"))) = true
    · rw [if_pos h]
      exact ⟨fun _ => hcond.mp h, fun _ => rfl⟩
    · rw [if_neg h]
      constructor
      · intro heq
        exact absurd heq (by simp)
      · intro hp
        exact absurd (hcond.mpr hp) h
  · intro hp
    rw [hred, if_neg (fun h => hp (hcond.mp h))]
  · intro hrole hown
    constructor
    · rw [hred, if_neg (fun h => hown (hcond.mp h).1)]
    · rw [hredD, if_pos]
      rw [Bool.or_eq_true, Bool.or_eq_true]
      rcases hrole with h | h
      · exact Or.inr (Or.inl (by simp [h]))
      · exact Or.inr (Or.inr (by simp [h]))
  · have hmode : canEditComment true (parsedUserId u.id) note.userId
        (u.role == some "lexicographer")
        ((u.role == some "admin") || (u.role == some "superadmin")) =
        ((match parsedUserId u.id, note.userId with
          | some r, some uid => r == uid
          | _, _ => false) &&
          ((u.role == some "lexicographer") ||
            ((u.role == some "admin") || (u.role == some "superadmin")))) := by
      simp only [canEditComment, Bool.not_true, Bool.false_eq_true, if_false]
      cases hm : (match parsedUserId u.id, note.userId with
          | some r, some uid => r == uid
          | _, _ => false) with
      | true => simp
      | false => simp
    rw [hmode]
    simp only [Bool.and_eq_true, Bool.or_eq_true, beq_iff_eq, ownerMatch_iff]

/-- Claim C3 witness: a lexicographer updates their own note; an admin who
does not own the note gets 403 on PATCH although the DELETE of the same
note succeeds. -/
theorem C3_patchComment_ownership_witness :
    patchCommentHandler
        (fun i => if i = 5 then
          some ⟨some 7, some ⟨"casa"⟩, some ⟨7, "ana"⟩⟩ else none)
        (some ⟨some "7", some "lexicographer"⟩) "casa" "5"
        (.obj [("note", .str " nuevo ")]) = ⟨200, some (5, "nuevo")⟩ ∧
    patchCommentHandler
        (fun i => if i = 5 then
          some ⟨some 7, some ⟨"casa"⟩, some ⟨7, "ana"⟩⟩ else none)
        (some ⟨some "1", some "admin"⟩) "casa" "5"
        (.obj [("note", .str " nuevo ")]) = ⟨403, none⟩ ∧
    deleteCommentHandler
        (fun i => if i = 5 then
          some ⟨some 7, some ⟨"casa"⟩, some ⟨7, "ana"⟩⟩ else none)
        (some ⟨some "1", some "admin"⟩) "casa" "5" = ⟨200, some 5⟩ := by
  have hadmin := C3_patchComment_ownership
    (fun i => if i = 5 then
      some ⟨some 7, some ⟨"casa"⟩, some ⟨7, "ana"⟩⟩ else none)
    ⟨some "1", some "admin"⟩ "casa" "5" (.obj [("note", .str " nuevo ")]) 5
    ⟨some 7, some ⟨"casa"⟩, some ⟨7, "ana"⟩⟩ (by decide) (by decide) (by decide)
  have hown : ¬ (∃ rid, parsedUserId (some "1") = some rid ∧
      (some (7 : Int)) = some rid) := by
    rintro ⟨rid, h1, h2⟩
    rw [show parsedUserId (some "1") = some 1 from by decide] at h1
    injection h1 with e1
    injection h2 with e2
    omega
  refine ⟨?_, ?_, ?_⟩
  · exact (C3_patchComment_ownership
      (fun i => if i = 5 then
        some ⟨some 7, some ⟨"casa"⟩, some ⟨7, "ana"⟩⟩ else none)
      ⟨some "7", some "lexicographer"⟩ "casa" "5" (.obj [("note", .str " nuevo ")]) 5
      ⟨some 7, some ⟨"casa"⟩, some ⟨7, "ana"⟩⟩ (by decide) (by decide) (by decide)).1.mpr
      ⟨⟨7, by decide, rfl⟩, Or.inl rfl⟩
  · exact (hadmin.2.2.1 (Or.inl rfl) hown).1
  · exact (hadmin.2.2.1 (Or.inl rfl) hown).2

/-- Claim C6: for a POST on `/api/words/[lemma]` (past rate limiting), a
payload whose `lemma` field is not a string or trims to the empty string
is answered with 400 and `createWord` is not called; otherwise `createWord`
receives the trimmed lemma and — when `normalizeMeanings` of the payload
values is empty — the single default pending meaning, and a successful
creation is answered with 201 carrying exactly `wordId`, `lemma` and
`letter`. -/
theorem C6_postWord_create :
    ∀ (keys : List String) (payload : JVal) (createOk : Bool) (created : CreateOutcome),
    (postLemmaOf payload = "" →
      postWordHandler keys true payload createOk created = ⟨400, none, none⟩) ∧
    (postLemmaOf payload ≠ "" →
      ∃ word opts,
        (postWordHandler keys true payload createOk created).createCalledWith =
          some (word, opts) ∧
        word.lemmaValue = postLemmaOf payload ∧
        (normalizeMeanings keys (jfield (some payload) "values") = [] →
          word.values = [defaultMeaning keys]) ∧
        (createOk = true →
          (postWordHandler keys true payload createOk created).status = 201 ∧
          (postWordHandler keys true payload createOk created).data = some created)) := by
  intro keys payload createOk created
  constructor
  · intro h
    simp [postWordHandler, h]
  · intro h
    cases createOk with
    | false =>
      refine ⟨⟨postLemmaOf payload,
          (match getField payload "root" with | some (.str s) => s | _ => ""),
          (if (normalizeMeanings keys (jfield (some payload) "values")).length > 0
            then normalizeMeanings keys (jfield (some payload) "values")
            else [defaultMeaning keys])⟩,
        ⟨(match getField payload "letter" with
            | some (.str s) => some (jsTrim s) | _ => none),
          resolveAssignedTo (jfield (some payload) "assignedTo"),
          (match getField payload "status" with | some (.str s) => some s | _ => none),
          resolveAssignedTo (jfield (some payload) "createdBy")⟩, ?_, rfl, ?_, ?_⟩
      · simp only [postWordHandler, if_neg h]
        rfl
      · intro hv
        show (if (normalizeMeanings keys (jfield (some payload) "values")).length > 0
            then normalizeMeanings keys (jfield (some payload) "values")
            else [defaultMeaning keys]) = [defaultMeaning keys]
        rw [hv]
        simp
      · intro hOk
        exact absurd hOk (by simp)
    | true =>
      refine ⟨⟨postLemmaOf payload,
          (match getField payload "root" with | some (.str s) => s | _ => ""),
          (if (normalizeMeanings keys (jfield (some payload) "values")).length > 0
            then normalizeMeanings keys (jfield (some payload) "values")
            else [defaultMeaning keys])⟩,
        ⟨(match getField payload "letter" with
            | some (.str s) => some (jsTrim s) | _ => none),
          resolveAssignedTo (jfield (some payload) "assignedTo"),
          (match getField payload "status" with | some (.str s) => some s | _ => none),
          resolveAssignedTo (jfield (some payload) "createdBy")⟩, ?_, rfl, ?_, ?_⟩
      · simp only [postWordHandler, if_neg h]
        rfl
      · intro hv
        show (if (normalizeMeanings keys (jfield (some payload) "values")).length > 0
            then normalizeMeanings keys (jfield (some payload) "values")
            else [defaultMeaning keys]) = [defaultMeaning keys]
        rw [hv]
        simp
      · intro _
        constructor
        · simp [postWordHandler, h]
        · simp [postWordHandler, h]

/-- Claim C6 witness: a concrete payload with a padded lemma and no values
reaches `createWord` and is answered with 201 and the creation result. -/
theorem C6_postWord_create_witness :
    (postWordHandler ["style"] true (.obj [("lemma", .str " casa ")]) true
        ⟨1, "casa", some "c"⟩).status = 201 ∧
    (postWordHandler ["style"] true (.obj [("lemma", .str " casa ")]) true
        ⟨1, "casa", some "c"⟩).data = some ⟨1, "casa", some "c"⟩ ∧
    (∃ word opts,
      (postWordHandler ["style"] true (.obj [("lemma", .str " casa ")]) true
          ⟨1, "casa", some "c"⟩).createCalledWith = some (word, opts) ∧
      word.lemmaValue = "casa" ∧ word.values = [defaultMeaning ["style"]]) := by
  obtain ⟨word, opts, h1, h2, h3, h4⟩ :=
    (C6_postWord_create ["style"] (.obj [("lemma", .str " casa ")]) true
      ⟨1, "casa", some "c"⟩).2 (by decide)
  have h5 := h4 rfl
  exact ⟨h5.1, h5.2, word, opts, h1, h2, h3 rfl⟩

/-- Claim C7 counterexample: a GET whose lemma parameter is a bare percent
sign is neither answered with 400 nor routed to `getWordByLemma`: the
`decodeURIComponent` call throws and the handler answers 500 from its
catch block, a case outside the enumeration of the claim. -/
theorem C7_counterexample :
    getWordHandler true "%" false none (fun _ _ => some (.str "w")) =
      ⟨500, none, none⟩ := by
  rfl

/-- Claim C7 (amended): for a GET past rate limiting, the handler returns
400 when the lemma trims to empty, 500 when the trimmed lemma fails to
URI-decode, and 400 when the decoded lemma exceeds 100 UTF-16 units — in
all cases without querying the database; otherwise it calls
`getWordByLemma` with `includeDrafts` exactly when the editor-mode headers
or the `editorMode=true` query parameter say so, answers 404 when the
lookup yields nothing and 200 with the word data otherwise. -/
theorem C7_getWord_flow :
    ∀ (rawLemma : String) (h : Bool) (q : Option String) (db : String → Bool → Option JVal),
    (jsTrim rawLemma = "" →
      getWordHandler true rawLemma h q db = ⟨400, none, none⟩) ∧
    (decodeURIComponent (jsTrim rawLemma) = none →
      getWordHandler true rawLemma h q db = ⟨500, none, none⟩) ∧
    (jsTrim rawLemma ≠ "" →
      ∀ d, decodeURIComponent (jsTrim rawLemma) = some d →
      (utf16Length d > 100 →
        getWordHandler true rawLemma h q db = ⟨400, none, none⟩) ∧
      (¬ utf16Length d > 100 →
        (db d (h || q == some "true") = none →
          getWordHandler true rawLemma h q db =
            ⟨404, some (d, h || q == some "true"), none⟩) ∧
        (∀ w, db d (h || q == some "true") = some w →
          getWordHandler true rawLemma h q db =
            ⟨200, some (d, h || q == some "true"), some w⟩))) := by
  intro rawLemma h q db
  refine ⟨?_, ?_, ?_⟩
  · intro he
    simp [getWordHandler, he]
  · intro hd
    have hne : ¬ jsTrim rawLemma = "" := by
      intro he
      rw [he] at hd
      exact absurd hd (by decide)
    simp [getWordHandler, hne, hd]
  · intro hne d hd
    constructor
    · intro hlong
      simp [getWordHandler, hne, hd, hlong]
    · intro hshort
      constructor
      · intro hdb
        simp [getWordHandler, hne, hd, hshort, hdb]
      · intro w hdb
        simp [getWordHandler, hne, hd, hshort, hdb]

/-- Claim C7 witness: a padded lemma in editor mode is decoded, trimmed and
answered with the word data found by the lookup. -/
theorem C7_getWord_flow_witness :
    getWordHandler true " casa " true none (fun _ _ => some (.str "w")) =
      ⟨200, some ("casa", true), some (.str "w")⟩ ∧
    getWordHandler true "   " true none (fun _ _ => some (.str "w")) =
      ⟨400, none, none⟩ :=
  ⟨((C7_getWord_flow " casa " true none (fun _ _ => some (.str "w"))).2.2
      (by decide) "casa" (by decide)).2 (by decide) |>.2 (.str "w") rfl,
   (C7_getWord_flow "   " true none (fun _ _ => some (.str "w"))).1 (by decide)⟩

/-- The indexed normalization loop preserves length. -/
theorem normalizeLoop_length (keys : List String) :
    ∀ (l : List JVal) (j : Nat), (normalizeLoop keys j l).length = l.length := by
  intro l
  induction l with
  | nil => intro j; rfl
  | cons d rest ih =>
    intro j
    simp [normalizeLoop, ih]

/-- Element lookup in the indexed normalization loop. -/
theorem normalizeLoop_get? (keys : List String) :
    ∀ (l : List JVal) (j i : Nat),
      (normalizeLoop keys j l).get? i = (l.get? i).map (fun d => buildMeaning keys (j + i) d) := by
  intro l
  induction l with
  | nil => intro j i; simp [normalizeLoop]
  | cons d rest ih =>
    intro j i
    cases i with
    | zero => simp [normalizeLoop]
    | succ i' =>
      have harith : j + 1 + i' = j + (i' + 1) := by omega
      simp only [normalizeLoop, List.get?_cons_succ]
      rw [ih (j + 1) i', harith]

/-- Claim C8: `normalizeMeanings` is total and shape-preserving: a
non-array input yields the empty list; otherwise non-object and `null`
items are dropped and each remaining item at post-filter index `i` yields
one `Meaning` whose `number` is the item number when it is a number and
`i + 1` otherwise, whose `meaning` is the item meaning when it is a string
that does not trim to empty and the template string otherwise, whose
`examples` is `null` exactly when `extractExamples` is empty, and which
binds every marker key to the item value when that value is a string and
to `null` otherwise. -/
theorem C8_normalizeMeanings_shape :
    ∀ (keys : List String) (v : JVal),
    (isArr v = false → normalizeMeanings keys v = []) ∧
    (∀ items, v = JVal.arr items →
      (normalizeMeanings keys v).length = (items.filter isObjLike).length ∧
      (∀ (i : Nat) (d : JVal), (items.filter isObjLike).get? i = some d →
        ∃ m, (normalizeMeanings keys v).get? i = some m ∧
          m.number = (match getField d "number" with
                      | some (.num n) => n
                      | _ => .int (i + 1)) ∧
          m.meaning = (match getField d "meaning" with
                       | some (.str s) =>
                         if jsTrim s ≠ "" then s
                         else "Definición " ++ jnumToString m.number
                       | _ => "Definición " ++ jnumToString m.number) ∧
          (m.examples = none ↔ extractExamples d = []) ∧
          m.markers = keys.map (fun k =>
            (k, match getField d k with
                | some (.str s) => some s
                | _ => none)))) := by
  intro keys v
  constructor
  · intro hv
    cases v <;> first
      | rfl
      | exact absurd hv (by simp [isArr])
  · intro items hv
    subst hv
    constructor
    · simp only [normalizeMeanings]
      exact normalizeLoop_length keys _ 0
    · intro i d hd
      refine ⟨buildMeaning keys i d, ?_, ?_, ?_, ?_, ?_⟩
      · simp only [normalizeMeanings]
        rw [normalizeLoop_get? keys _ 0 i, hd]
        simp
      · rfl
      · show (match getField d "meaning" with
            | some (.str s) =>
              if jsTrim s ≠ "" then s
              else "Definición " ++ jnumToString (buildMeaning keys i d).number
            | _ => "Definición " ++ jnumToString (buildMeaning keys i d).number) = _
        rfl
      · show (if (extractExamples d).length > 0 then some (extractExamples d) else none) =
            none ↔ extractExamples d = []
        cases hex : extractExamples d with
        | nil => simp
        | cons a l => simp
      · rfl

/-- Claim C8 witness: a concrete two-item array where the `null` item is
dropped and the surviving object keeps its own number, receives the
template meaning, has no examples and binds its marker key. -/
theorem C8_normalizeMeanings_shape_witness :
    (normalizeMeanings ["style"]
        (.arr [.null, .obj [("number", .num (.int 5)), ("style", .str "fam.")]])).length =
      ((([.null, .obj [("number", .num (.int 5)), ("style", .str "fam.")]] :
        List JVal)).filter isObjLike).length ∧
    (∃ m, (normalizeMeanings ["style"]
        (.arr [.null, .obj [("number", .num (.int 5)), ("style", .str "fam.")]])).get? 0 =
        some m ∧
      m.number = .int 5 ∧ m.meaning = "Definición 5" ∧ m.examples = none ∧
      m.markers = [("style", some "fam.")]) := by
  have h := (C8_normalizeMeanings_shape ["style"]
    (.arr [.null, .obj [("number", .num (.int 5)), ("style", .str "fam.")]])).2
    [.null, .obj [("number", .num (.int 5)), ("style", .str "fam.")]] rfl
  obtain ⟨m, h1, h2, h3, h4, h5⟩ := h.2 0
    (.obj [("number", .num (.int 5)), ("style", .str "fam.")]) rfl
  refine ⟨h.1, m, h1, h2, ?_, ?_, h5⟩
  · rw [h3, h2]
    rfl
  · rw [h4]
    rfl
